import Mathlib

/-!
Verification of the logins-sql storage core (src/logins-sql/src/db.rs).

The development shallowly embeds the two-table (mirror/overlay) login store:
SQL tables become lists of row structures, SQL statements become list
operations (filter for DELETE, map for UPDATE, conditional append for
INSERT OR IGNORE), and every fallible operation returns the resulting
database state together with an Except value, statement-by-statement
faithful to LoginDb in db.rs.

Parts of the repository outside db.rs (login.rs, util.rs, schema.rs) are
not available; where db.rs depends on them the corresponding definition is
modelled from the specification and marked as such in its doc comment.
-/

set_option maxHeartbeats 1000000

/-! Helper lemmas about list searches. -/

/-! Generic fold lemma: a fold that appends one element per input is the
original accumulator followed by the map of the per-input element. -/

/-! State-frame lemmas for the metadata field. -/

/-! A search-after-guarded-map lemma used by the update frame theorem. -/

/-- Modelled from the spec: SyncStatus New has numeric value 0
(login.rs, which defines the enum, is not in the sources). -/
def statusNew : Nat := 0

/-- Modelled from the spec: SyncStatus Changed has numeric value 1. -/
def statusChanged : Nat := 1

/-- Modelled from the spec: SyncStatus Synced has numeric value 2. -/
def statusSynced : Nat := 2

/-- The Login record, section 3 of the spec: user-visible fields plus
usage metadata. Optional URL/realm fields are Option String (SQL NULL). -/
structure Login where
  id : String
  hostname : String
  http_realm : Option String
  form_submit_url : Option String
  username : String
  password : String
  username_field : String
  password_field : String
  time_created : Int
  time_last_used : Int
  time_password_changed : Int
  times_used : Int
deriving Repr, DecidableEq

/-- A row of the loginsL overlay table: the common columns plus
local_modified (nullable: the mirror-clone SQL writes NULL), is_deleted
and sync_status (stored as its numeric code, as in the database). -/
structure LocalRow where
  guid : String
  hostname : String
  http_realm : Option String
  form_submit_url : Option String
  username : String
  password : String
  username_field : String
  password_field : String
  time_created : Int
  time_last_used : Int
  time_password_changed : Int
  times_used : Int
  local_modified : Option Int
  is_deleted : Bool
  sync_status : Nat
deriving Repr, DecidableEq

/-- A row of the loginsM mirror table: the common columns plus
is_overridden and server_modified. The is_overridden column only ever
holds 0 or 1, so it is modelled as Bool; the SQL test
"is_overridden IS NOT 1" is the negation of the flag. -/
structure MirrorRow where
  guid : String
  hostname : String
  http_realm : Option String
  form_submit_url : Option String
  username : String
  password : String
  username_field : String
  password_field : String
  time_created : Int
  time_last_used : Int
  time_password_changed : Int
  times_used : Int
  is_overridden : Bool
  server_modified : Int
deriving Repr, DecidableEq

/-- The persistent state of the store: the two login tables and the
loginsSyncMeta key/value table (its two known keys as fields;
last_sync is kept in integer milliseconds, exactly as stored). -/
structure DbState where
  loginsL : List LocalRow
  loginsM : List MirrorRow
  last_sync : Option Int
  global_state : Option String
deriving Repr, DecidableEq

/-- The store with empty tables and no metadata. -/
def emptyDb : DbState :=
  { loginsL := [], loginsM := [], last_sync := none, global_state := none }

/-- Error kinds of section 7 of the spec that db.rs raises. -/
inductive ErrorKind where
  | EncryptionUnsupported
  | DuplicateGuid (guid : String)
  | NoSuchRecord (guid : String)
  | InvalidLogin
deriving Repr, DecidableEq

/-- Scans a character list for the first occurrence of the three
characters colon slash slash. -/
def hasSchemeSep : List Char → Bool
  | ':' :: '/' :: '/' :: _ => true
  | _ :: rest => hasSchemeSep rest
  | [] => false

/-- Modelled from the spec: the hostname of a valid record must parse as
a URL with a scheme (the real check lives in login.rs, not in the
sources). Modelled as: the string contains the scheme separator and does
not start with a colon. -/
def hasScheme (s : String) : Bool :=
  match s.data with
  | ':' :: _ => false
  | d => hasSchemeSep d

/-- Modelled from the spec: Login::check_valid (login.rs is not in the
sources). Validity: password non-empty, exactly one of http_realm and
form_submit_url present, hostname parses as a URL with a scheme. -/
def Login.check_valid (l : Login) : Bool :=
  l.password != "" &&
  (l.http_realm.isSome != l.form_submit_url.isSome) &&
  hasScheme l.hostname

/-- Drops characters up to and including the first scheme separator,
returning the remainder, or none when there is no separator. -/
def dropToAuthority : List Char → Option (List Char)
  | ':' :: '/' :: '/' :: rest => some rest
  | _ :: rest => dropToAuthority rest
  | [] => none

/-- The authority (host and optional port) of a URL suffix: the
characters before the first slash, question mark or hash. -/
def takeHostPort (l : List Char) : List Char :=
  l.takeWhile (fun c => c != '/' && c != '?' && c != '#')

/-- Modelled from the spec: util::url_host_port (util.rs is not in the
sources) returns the host-port part of the normalized origin of a
parseable absolute URL, none otherwise. Modelled as the characters
between the scheme separator and the first path/query/fragment
delimiter; fails when there is no scheme or no host. -/
def url_host_port (s : String) : Option String :=
  match s.data with
  | ':' :: _ => none
  | d =>
    (dropToAuthority d).bind (fun rest =>
      let hp := takeHostPort rest
      if hp.isEmpty then none else some (String.mk hp))

/-- Whether the needle occurs as a contiguous substring of the haystack,
on character lists; the SQL instr(hay, needle) > 0 test for a non-empty
needle. -/
def containsSub (hay needle : List Char) : Bool :=
  needle.isPrefixOf hay ||
    (match hay with
     | [] => false
     | _ :: t => containsSub t needle)

/-- Modelled from the spec: the empty-string-to-absent normalization that
Login::from_row applies to the optional URL/realm fields (login.rs is not
in the sources). -/
def normOpt : Option String → Option String
  | some s => if s == "" then none else some s
  | none => none

/-- Modelled from the spec: Login::from_row on an overlay row (login.rs
is not in the sources): the common columns, with empty optional fields
normalized to absent. -/
def localToLogin (r : LocalRow) : Login :=
  { id := r.guid
    hostname := r.hostname
    http_realm := normOpt r.http_realm
    form_submit_url := normOpt r.form_submit_url
    username := r.username
    password := r.password
    username_field := r.username_field
    password_field := r.password_field
    time_created := r.time_created
    time_last_used := r.time_last_used
    time_password_changed := r.time_password_changed
    times_used := r.times_used }

/-- Modelled from the spec: Login::from_row on a mirror row. -/
def mirrorToLogin (r : MirrorRow) : Login :=
  { id := r.guid
    hostname := r.hostname
    http_realm := normOpt r.http_realm
    form_submit_url := normOpt r.form_submit_url
    username := r.username
    password := r.password
    username_field := r.username_field
    password_field := r.password_field
    time_created := r.time_created
    time_last_used := r.time_last_used
    time_password_changed := r.time_password_changed
    times_used := r.times_used }

/-- The LocalLogin::login field of login.rs: the record carried by an
overlay row. -/
def LocalRow.login (r : LocalRow) : Login := localToLogin r

/-- db.rs LoginDb::exists: a visible row in either table, i.e. a
non-deleted overlay row or a non-overridden mirror row with the guid. -/
def existsGuid (st : DbState) (id : String) : Bool :=
  st.loginsL.any (fun r => r.guid == id && !r.is_deleted) ||
  st.loginsM.any (fun r => r.guid == id && !r.is_overridden)

/-- The overlay row that db.rs LoginDb::add inserts: the (metadata
filled) login with local_modified = now, is_deleted = 0 and
sync_status = New. -/
def rowOfAdd (now_ms : Int) (l : Login) : LocalRow :=
  { guid := l.id
    hostname := l.hostname
    http_realm := l.http_realm
    form_submit_url := l.form_submit_url
    username := l.username
    password := l.password
    username_field := l.username_field
    password_field := l.password_field
    time_created := l.time_created
    time_last_used := l.time_last_used
    time_password_changed := l.time_password_changed
    times_used := l.times_used
    local_modified := some now_ms
    is_deleted := false
    sync_status := statusNew }

/-- db.rs LoginDb::add. Validates, generates a guid when the id is
empty (the caller supplies the fresh guid, standing for random_guid),
fills in the metadata defaults, then INSERT OR IGNORE into loginsL;
zero rows changed means a row with that guid already exists (the guid is
the conflict key, per the primary-key invariant of section 3) and raises
DuplicateGuid. The state is returned alongside the outcome; on an error
it is the state as left by the statements already executed. -/
def add (now_ms : Int) (fresh_guid : String) (st : DbState) (login : Login) :
    DbState × Except ErrorKind Login :=
  if !login.check_valid then (st, .error .InvalidLogin) else
  let login := if login.id == "" then { login with id := fresh_guid } else login
  let login := { login with
    time_created := now_ms
    time_password_changed := now_ms
    time_last_used := now_ms
    times_used := 1 }
  if st.loginsL.any (fun r => r.guid == login.id) then
    (st, .error (.DuplicateGuid login.id))
  else
    ({ st with loginsL := st.loginsL ++ [rowOfAdd now_ms login] }, .ok login)

/-- db.rs LoginDb::mark_mirror_overridden: UPDATE loginsM SET
is_overridden = 1 WHERE guid = :guid. -/
def mark_mirror_overridden (st : DbState) (guid : String) : DbState :=
  { st with loginsM := st.loginsM.map (fun r =>
      if r.guid == guid then { r with is_overridden := true } else r) }

/-- The overlay row written by the CLONE_..._MIRROR_SQL statements: the
common columns of the mirror row with local_modified NULL, is_deleted 0
and sync_status 0. -/
def cloneRow (m : MirrorRow) : LocalRow :=
  { guid := m.guid
    hostname := m.hostname
    http_realm := m.http_realm
    form_submit_url := m.form_submit_url
    username := m.username
    password := m.password
    username_field := m.username_field
    password_field := m.password_field
    time_created := m.time_created
    time_last_used := m.time_last_used
    time_password_changed := m.time_password_changed
    times_used := m.times_used
    local_modified := none
    is_deleted := false
    sync_status := 0 }

/-- db.rs LoginDb::clone_mirror_to_overlay: CLONE_SINGLE_MIRROR_SQL, an
INSERT OR IGNORE into loginsL from the mirror row with the guid; returns
the number of rows changed. -/
def clone_mirror_to_overlay (st : DbState) (guid : String) : DbState × Nat :=
  match st.loginsM.find? (fun r => r.guid == guid) with
  | none => (st, 0)
  | some m =>
    if st.loginsL.any (fun r => r.guid == guid) then (st, 0)
    else ({ st with loginsL := st.loginsL ++ [cloneRow m] }, 1)

/-- db.rs LoginDb::ensure_local_overlay_exists: when no overlay row with
the guid exists, clone it from the mirror; zero rows cloned raises
NoSuchRecord. -/
def ensure_local_overlay_exists (st : DbState) (guid : String) :
    DbState × Except ErrorKind Unit :=
  if st.loginsL.any (fun r => r.guid == guid) then (st, .ok ())
  else
    let p := clone_mirror_to_overlay st guid
    if p.2 == 0 then (p.1, .error (.NoSuchRecord guid)) else (p.1, .ok ())

/-- The row transformation of the UPDATE statement in db.rs
LoginDb::update: writes the caller fields, bumps times_used, sets
local_modified and timeLastUsed to now, sets timePasswordChanged to now
only when the password changed, and sets sync_status to
max(sync_status, Changed). The guid and timeCreated columns are not in
the SET list. -/
def updateRow (now_ms : Int) (login : Login) (r : LocalRow) : LocalRow :=
  { r with
    local_modified := some now_ms
    time_last_used := now_ms
    time_password_changed :=
      if r.password == login.password then r.time_password_changed else now_ms
    http_realm := login.http_realm
    form_submit_url := login.form_submit_url
    username_field := login.username_field
    password_field := login.password_field
    times_used := r.times_used + 1
    username := login.username
    password := login.password
    hostname := login.hostname
    sync_status := max r.sync_status statusChanged }

/-- db.rs LoginDb::update: validate, ensure the overlay exists, mark the
mirror overridden, then UPDATE the overlay row with the guid. -/
def update (now_ms : Int) (st : DbState) (login : Login) :
    DbState × Except ErrorKind Unit :=
  if !login.check_valid then (st, .error .InvalidLogin) else
  let p := ensure_local_overlay_exists st login.id
  match p.2 with
  | .error e => (p.1, .error e)
  | .ok _ =>
    let st := mark_mirror_overridden p.1 login.id
    ({ st with loginsL := st.loginsL.map (fun r =>
        if r.guid == login.id then updateRow now_ms login r else r) },
     .ok ())

/-- db.rs LoginDb::touch: ensure the overlay exists, mark the mirror
overridden, then bump timeLastUsed, timesUsed and local_modified of the
non-deleted overlay row with the guid; sync_status is not changed. -/
def touch (now_ms : Int) (st : DbState) (id : String) :
    DbState × Except ErrorKind Unit :=
  let p := ensure_local_overlay_exists st id
  match p.2 with
  | .error e => (p.1, .error e)
  | .ok _ =>
    let st := mark_mirror_overridden p.1 id
    ({ st with loginsL := st.loginsL.map (fun r =>
        if r.guid == id && !r.is_deleted then
          { r with
            time_last_used := now_ms
            times_used := r.times_used + 1
            local_modified := some now_ms }
        else r) },
     .ok ())

/-- The tombstone overlay row that the INSERT OR IGNORE statements of
db.rs LoginDb::delete and LoginDb::wipe build from a mirror row: guid and
timeCreated copied, local_modified and timePasswordChanged set to now,
is_deleted 1, sync_status Changed, hostname, password and username empty.
Columns not named in the INSERT take the schema defaults; schema.rs is
not in the sources, so they are modelled as NULL/empty/zero. -/
def tombstoneFromMirror (now_ms : Int) (m : MirrorRow) : LocalRow :=
  { guid := m.guid
    hostname := ""
    http_realm := none
    form_submit_url := none
    username := ""
    password := ""
    username_field := ""
    password_field := ""
    time_created := m.time_created
    time_last_used := 0
    time_password_changed := now_ms
    times_used := 0
    local_modified := some now_ms
    is_deleted := true
    sync_status := statusChanged }

/-- The row transformation of the tombstoning UPDATE in db.rs
LoginDb::delete and LoginDb::wipe: local_modified to now, sync_status
Changed, is_deleted 1, password, hostname and username cleared.
timePasswordChanged and timeCreated are not in the SET list. -/
def tombstoneRow (now_ms : Int) (r : LocalRow) : LocalRow :=
  { r with
    local_modified := some now_ms
    sync_status := statusChanged
    is_deleted := true
    password := ""
    hostname := ""
    username := "" }

/-- db.rs LoginDb::delete: record whether a visible row existed, then
(1) hard-delete overlay rows with the guid and sync_status New,
(2) tombstone any remaining overlay row with the guid,
(3) mark the mirror row overridden,
(4) INSERT OR IGNORE a tombstone copied from the mirror row when no
overlay row with the guid remains. Returns the pre-state existence. -/
def delete (now_ms : Int) (st : DbState) (id : String) : DbState × Bool :=
  let ex := existsGuid st id
  let l1 := st.loginsL.filter (fun r => !(r.guid == id && r.sync_status == statusNew))
  let l2 := l1.map (fun r => if r.guid == id then tombstoneRow now_ms r else r)
  let m2 := st.loginsM.map (fun r =>
    if r.guid == id then { r with is_overridden := true } else r)
  let l3 :=
    if l2.any (fun r => r.guid == id) then l2
    else
      match st.loginsM.find? (fun r => r.guid == id) with
      | some m => l2 ++ [tombstoneFromMirror now_ms m]
      | none => l2
  ({ st with loginsL := l3, loginsM := m2 }, ex)

/-- Inserts a mirror row unless a row with its guid is already present:
one row of an INSERT OR IGNORE into loginsM, whose conflict key is the
guid primary key. -/
def insertOrIgnoreM (t : List MirrorRow) (r : MirrorRow) : List MirrorRow :=
  if t.any (fun x => x.guid == r.guid) then t else t ++ [r]

/-- Inserts an overlay row unless a row with its guid is already
present: one row of an INSERT OR IGNORE into loginsL. -/
def insertOrIgnoreL (t : List LocalRow) (r : LocalRow) : List LocalRow :=
  if t.any (fun x => x.guid == r.guid) then t else t ++ [r]

/-- db.rs LoginDb::wipe: (1) hard-delete overlay rows with sync_status
New, (2) tombstone every non-deleted overlay row, (3) mark every mirror
row overridden, (4) INSERT OR IGNORE a tombstone for every mirror row
whose guid has no overlay row. -/
def wipe (now_ms : Int) (st : DbState) : DbState :=
  let l1 := st.loginsL.filter (fun r => !(r.sync_status == statusNew))
  let l2 := l1.map (fun r => if !r.is_deleted then tombstoneRow now_ms r else r)
  let m2 := st.loginsM.map (fun r => { r with is_overridden := true })
  let l3 := st.loginsM.foldl (fun acc m => insertOrIgnoreL acc (tombstoneFromMirror now_ms m)) l2
  { st with loginsL := l3, loginsM := m2 }

/-- db.rs LoginDb::set_last_sync: REPLACE the last_sync metadata value
(kept in integer milliseconds; the fractional-seconds ServerTimestamp
wrapper is out of scope of this embedding). -/
def set_last_sync (st : DbState) (ts : Int) : DbState :=
  { st with last_sync := some ts }

/-- db.rs LoginDb::get_last_sync: the stored milliseconds value (the
conversion to fractional seconds on read is out of scope). -/
def get_last_sync (st : DbState) : Option Int := st.last_sync

/-- db.rs LoginDb::reset: clone every mirror row without an overlay row
into loginsL (CLONE_ENTIRE_MIRROR_SQL), delete all mirror rows, set
every overlay row sync_status to New, and set last_sync to 0. -/
def reset (st : DbState) : DbState :=
  let l1 := st.loginsM.foldl (fun acc m => insertOrIgnoreL acc (cloneRow m)) st.loginsL
  let st := { st with loginsL := l1, loginsM := [] }
  let st := { st with loginsL := st.loginsL.map (fun r => { r with sync_status := statusNew }) }
  set_last_sync st 0

/-- Modelled from the spec: util::each_chunk splits the guid list into
consecutive chunks of at most n elements (util.rs is not in the
sources); fuel-structured so that it computes by reduction. -/
def chunksOfAux : Nat → Nat → List String → List (List String)
  | _, _, [] => []
  | 0, _, l => [l]
  | fuel + 1, n, x :: xs => (x :: xs.take (n - 1)) :: chunksOfAux fuel n (xs.drop (n - 1))

/-- The chunking of a guid list by the variable-count ceiling. -/
def chunksOf (n : Nat) (l : List String) : List (List String) :=
  chunksOfAux l.length n l

/-- The mirror row that the promotion INSERT of db.rs
LoginDb::mark_as_synchronized writes: the common columns of the overlay
row with is_overridden = 0 and server_modified = ts. -/
def mirrorFromLocal (ts : Int) (l : LocalRow) : MirrorRow :=
  { guid := l.guid
    hostname := l.hostname
    http_realm := l.http_realm
    form_submit_url := l.form_submit_url
    username := l.username
    password := l.password
    username_field := l.username_field
    password_field := l.password_field
    time_created := l.time_created
    time_last_used := l.time_last_used
    time_password_changed := l.time_password_changed
    times_used := l.times_used
    is_overridden := false
    server_modified := ts }

/-- One chunk of db.rs LoginDb::mark_as_synchronized: DELETE mirror rows
with the chunk guids, INSERT OR IGNORE the non-deleted overlay rows with
the chunk guids into the mirror with is_overridden = 0 and
server_modified = ts, then DELETE the overlay rows with the chunk
guids. -/
def syncChunkStep (ts : Int) (st : DbState) (chunk : List String) : DbState :=
  let m1 := st.loginsM.filter (fun r => !(chunk.contains r.guid))
  let copies := (st.loginsL.filter (fun l => !l.is_deleted && chunk.contains l.guid)).map
    (mirrorFromLocal ts)
  let m2 := copies.foldl insertOrIgnoreM m1
  let l2 := st.loginsL.filter (fun r => !(chunk.contains r.guid))
  { st with loginsL := l2, loginsM := m2 }

/-- db.rs LoginDb::mark_as_synchronized: the per-chunk statements over
each chunk of the guid list, then set_last_sync ts. -/
def mark_as_synchronized (max_var_count : Nat) (ts : Int) (st : DbState)
    (guids : List String) : DbState :=
  set_last_sync ((chunksOf max_var_count guids).foldl (syncChunkStep ts) st) ts

/-- db.rs Store::sync_finished for LoginDb: mark_as_synchronized on the
synced guids with the new timestamp. -/
def sync_finished (max_var_count : Nat) (new_timestamp : Int) (st : DbState)
    (records_synced : List String) : DbState :=
  mark_as_synchronized max_var_count new_timestamp st records_synced

/-- db.rs GET_ALL_SQL: non-deleted overlay rows followed by
non-overridden mirror rows, each mapped through Login::from_row. -/
def get_all (st : DbState) : List Login :=
  (st.loginsL.filter (fun r => !r.is_deleted)).map localToLogin ++
  (st.loginsM.filter (fun r => !r.is_overridden)).map mirrorToLogin

/-- The ORDER BY hostname ASC ... LIMIT 1 of GET_BY_GUID_SQL: the first
row attaining the minimal hostname. -/
def pickMinByHostname (l : List Login) : Option Login :=
  l.foldl (fun acc c =>
    match acc with
    | none => some c
    | some b => if c.hostname < b.hostname then some c else some b) none

/-- db.rs GET_BY_GUID_SQL via LoginDb::get_by_id: the union of the
visible overlay row and the non-overridden mirror row with the guid,
ordered by hostname, limited to one row. -/
def get_by_id (st : DbState) (id : String) : Option Login :=
  pickMinByHostname
    ((st.loginsL.filter (fun r => !r.is_deleted && r.guid == id)).map localToLogin ++
     (st.loginsM.filter (fun r => !r.is_overridden && r.guid == id)).map mirrorToLogin)

/-- The WHERE clause of db.rs LoginDb::find_dupe for one candidate
overlay row: hostname IS, httpRealm IS and username IS the incoming
values, and the formSubmitURL arm: when the incoming login has a
normalized host-port, formSubmitURL is the empty string or contains it
as a substring (instr > 0, NULL gives no match); otherwise
formSubmitURL IS NULL. -/
def dupeRowMatches (fsph : Option String) (l : Login) (r : LocalRow) : Bool :=
  r.hostname == l.hostname && r.http_realm == l.http_realm && r.username == l.username &&
  (match fsph with
   | some hp =>
     r.form_submit_url == some "" ||
       (match r.form_submit_url with
        | some f => containsSub f.data hp.data
        | none => false)
   | none => r.form_submit_url == none)

/-- db.rs LoginDb::find_dupe: the first overlay row matching the
incoming login under dupeRowMatches, where the host-port is computed
from the incoming form_submit_url by url_host_port; the row is returned
through Login::from_row. Only loginsL is searched. -/
def find_dupe (st : DbState) (l : Login) : Option Login :=
  let fsph := l.form_submit_url.bind (fun s => url_host_port s)
  (st.loginsL.find? (fun r => dupeRowMatches fsph l r)).map localToLogin

/-- The five plan-building calls that db.rs LoginDb::reconcile makes on
the UpdatePlan builder. Modelled from the spec: update_plan.rs, which
defines UpdatePlan, is not in the sources; section 9 of the spec models
a plan as a list of tagged actions, so each plan_... call is one tagged
constructor carrying exactly the arguments the code passes. -/
inductive PlanStep where
  | planDelete (guid : String)
  | planThreeWayMerge (loc : LocalRow) (mirror : MirrorRow) (upstream : Login)
      (upstream_time : Int) (server_now : Int)
  | planMirrorUpdate (upstream : Login) (upstream_time : Int)
  | planTwoWayMerge (loc : Login) (upstream : Login) (upstream_time : Int)
  | planMirrorInsert (upstream : Login) (upstream_time : Int) (is_override : Bool)
deriving Repr, DecidableEq

/-- The SyncLoginData slots of login.rs (not in the sources), per
section 9 of the spec: a product of the slot guid, the optional overlay
row, the optional mirror row, and the inbound pair whose first component
is none exactly when the inbound payload is a tombstone. -/
structure SyncLoginData where
  guid : String
  loc : Option LocalRow
  mirror : Option MirrorRow
  inbound : Option Login × Int
deriving Repr, DecidableEq

/-- db.rs LoginDb::reconcile: fold over the slots, appending for each
slot the plan call the code makes: a tombstone plans a delete; otherwise
the (mirror, local) presence pattern selects three-way merge, mirror
update, or two-way merge; with neither present, a content dupe from
find_dupe selects a two-way merge, else a mirror insert with
is_override false. -/
def reconcile (st : DbState) (records : List SyncLoginData) (server_now : Int) :
    List PlanStep :=
  records.foldl (fun plan record =>
    match record.inbound.fst with
    | none => plan ++ [PlanStep.planDelete record.guid]
    | some upstream =>
      let upstream_time := record.inbound.snd
      match record.mirror, record.loc with
      | some mirror, some l =>
        plan ++ [PlanStep.planThreeWayMerge l mirror upstream upstream_time server_now]
      | some _, none => plan ++ [PlanStep.planMirrorUpdate upstream upstream_time]
      | none, some l => plan ++ [PlanStep.planTwoWayMerge l.login upstream upstream_time]
      | none, none =>
        match find_dupe st upstream with
        | some dupe => plan ++ [PlanStep.planTwoWayMerge dupe upstream upstream_time]
        | none => plan ++ [PlanStep.planMirrorInsert upstream upstream_time false]) []

/-- The per-slot action that claim C1 asserts reconcile plans, written
from the claim text: a tombstone plans a delete of the slot guid; with
both mirror and local a three-way merge; with mirror only a mirror
update; with local only a two-way merge against the local record; with
neither, a two-way merge against a content dupe when find_dupe returns
one, else a mirror insert with is_override false. -/
def claimSlotAction (st : DbState) (server_now : Int) (r : SyncLoginData) : PlanStep :=
  match r.inbound.fst with
  | none => PlanStep.planDelete r.guid
  | some upstream =>
    match r.mirror, r.loc with
    | some mirror, some l =>
      PlanStep.planThreeWayMerge l mirror upstream r.inbound.snd server_now
    | some _, none => PlanStep.planMirrorUpdate upstream r.inbound.snd
    | none, some l => PlanStep.planTwoWayMerge l.login upstream r.inbound.snd
    | none, none =>
      match find_dupe st upstream with
      | some dupe => PlanStep.planTwoWayMerge dupe upstream r.inbound.snd
      | none => PlanStep.planMirrorInsert upstream r.inbound.snd false

/-- The dupe criterion exactly as claim C7 states it: hostname,
http_realm and username match exactly, and either both sides have no
form_submit_url, or the incoming form_submit_url has a normalized
host-port occurring as a substring of the local row's form_submit_url. -/
def claimIsDupe (l : Login) (r : LocalRow) : Bool :=
  r.hostname == l.hostname && r.http_realm == l.http_realm && r.username == l.username &&
  (match l.form_submit_url with
   | none => r.form_submit_url == none
   | some s =>
     match url_host_port s, r.form_submit_url with
     | some hp, some f => containsSub f.data hp.data
     | _, _ => false)

/-- The dupe criterion amended as the code forces, covering every
incoming record: both sides without form_submit_url match; an incoming
form_submit_url with a parseable host-port matches a local formSubmitURL
that is the empty string or contains the host-port as a substring; an
incoming form_submit_url whose host-port does not parse binds NULL into
the query, whose IS arm then matches exactly the local rows with no
formSubmitURL. -/
def amendedIsDupe (l : Login) (r : LocalRow) : Bool :=
  r.hostname == l.hostname && r.http_realm == l.http_realm && r.username == l.username &&
  (match l.form_submit_url with
   | none => r.form_submit_url == none
   | some s =>
     match url_host_port s with
     | some hp =>
       r.form_submit_url == some "" ||
         (match r.form_submit_url with
          | some f => containsSub f.data hp.data
          | none => false)
     | none => r.form_submit_url == none)

/-- The per-guid table discipline of section 3 of the spec: guids are
primary keys of both tables (at most one row each), and a visible
overlay row shadows the mirror row, so no guid has both a non-deleted
overlay row and a non-overridden mirror row. -/
def goodState (st : DbState) : Prop :=
  (st.loginsL.map (fun r => r.guid)).Nodup ∧
  (st.loginsM.map (fun r => r.guid)).Nodup ∧
  ∀ r ∈ st.loginsL, r.is_deleted = false →
    ∀ m ∈ st.loginsM, m.guid = r.guid → m.is_overridden = true

instance (st : DbState) : Decidable (goodState st) := by
  unfold goodState
  infer_instance

/-- A concrete valid login used by the concrete-input theorems. -/
def wLogin : Login :=
  { id := "AAAAAAAAAAAA"
    hostname := "https://example.com"
    http_realm := some ("realm")
    form_submit_url := none
    username := "u"
    password := "p"
    username_field := ""
    password_field := ""
    time_created := 0
    time_last_used := 0
    time_password_changed := 0
    times_used := 0 }

/-- The store after adding wLogin at time 100 to the empty store. -/
def c3st1 : DbState := (add 100 "f" emptyDb wLogin).1

/-- The store after then updating wLogin at time 200. -/
def c3st2 : DbState := (update 200 c3st1 wLogin).1

/-- A concrete id absent from the empty store. -/
def wid : String := "BBBBBBBBBBBB"

/-- A concrete overlay row used by witnesses. -/
def wRow : LocalRow := rowOfAdd 100 { wLogin with
  time_created := 100, time_last_used := 100, time_password_changed := 100, times_used := 1 }

/-- A concrete store holding wRow in the overlay. -/
def wSt : DbState := { emptyDb with loginsL := [wRow] }

/-- A store whose only row for the wLogin guid is in the mirror: built
by adding wLogin to the empty store and promoting it via
mark_as_synchronized (sync_finished). -/
def c6st : DbState :=
  mark_as_synchronized 999 10 (add 1 "f" emptyDb wLogin).1 [wLogin.id]

/-- A store holding wLogin in the overlay, for the C6 witness. -/
def c6wst : DbState := (add 1 "f" emptyDb wLogin).1

/-- The incoming login of the C7 counterexample: it has a
form_submit_url whose normalized host-port is the single character x. -/
def c7login : Login :=
  { id := "CCCCCCCCCCCC"
    hostname := "https://x"
    http_realm := none
    form_submit_url := some ("https://x/login")
    username := "u"
    password := "p"
    username_field := ""
    password_field := ""
    time_created := 0
    time_last_used := 0
    time_password_changed := 0
    times_used := 0 }

/-- The overlay row of the C7 counterexample: same hostname, realm and
username, but its formSubmitURL column holds the empty string. -/
def c7row : LocalRow :=
  { guid := "DDDDDDDDDDDD"
    hostname := "https://x"
    http_realm := none
    form_submit_url := some ("")
    username := "u"
    password := "q"
    username_field := ""
    password_field := ""
    time_created := 0
    time_last_used := 0
    time_password_changed := 0
    times_used := 0
    local_modified := some 1
    is_deleted := false
    sync_status := 0 }

/-- The store of the C7 counterexample. -/
def c7st : DbState := { emptyDb with loginsL := [c7row] }

/-- The incoming login of the second C7 divergence: its form_submit_url
is present but has no parseable host-port. -/
def c7login2 : Login :=
  { id := "EEEEEEEEEEEE"
    hostname := "https://x"
    http_realm := none
    form_submit_url := some ("javascript:void(0)")
    username := "u"
    password := "p"
    username_field := ""
    password_field := ""
    time_created := 0
    time_last_used := 0
    time_password_changed := 0
    times_used := 0 }

/-- The overlay row of the second C7 divergence: same hostname, realm
and username, and no formSubmitURL (NULL). -/
def c7row2 : LocalRow :=
  { guid := "FFFFFFFFFFFF"
    hostname := "https://x"
    http_realm := none
    form_submit_url := none
    username := "u"
    password := "q"
    username_field := ""
    password_field := ""
    time_created := 0
    time_last_used := 0
    time_password_changed := 0
    times_used := 0
    local_modified := some 1
    is_deleted := false
    sync_status := 0 }

/-- The store of the second C7 divergence. -/
def c7st2 : DbState := { emptyDb with loginsL := [c7row2] }

/-- The C4 counterexample chain: add at 100, promote to the mirror at
150, update at 200 with the same password (clones the mirror into the
overlay and keeps timePasswordChanged = 100), then delete at 300. -/
def c4st3 : DbState :=
  (update 200 (mark_as_synchronized 999 150 (add 100 "f" emptyDb wLogin).1 [wLogin.id])
    wLogin).1

/-- The state after deleting the record of the C4 chain at time 300. -/
def c4st4 : DbState := (delete 300 c4st3 wLogin.id).1

/-- The tombstone row that deleting the mirror-only guid of c6st at time
300 inserts: a copy of the mirror row. -/
def c4wrow : LocalRow :=
  tombstoneFromMirror 300 (mirrorFromLocal 10 (rowOfAdd 1 { wLogin with
    time_created := 1, time_password_changed := 1, time_last_used := 1, times_used := 1 }))

/-- A reachable state with both a visible overlay row and a
non-overridden mirror row for the same guid: add, promote via
mark_as_synchronized, then add again (which succeeds, see C6). -/
def c8st : DbState := (add 2 "f" c6st wLogin).1

/-- The promotion copy of the concrete overlay row wRow at
server_modified 500. -/
def c2m : MirrorRow := mirrorFromLocal 500 wRow

/-- The overlay row left by the concrete update of the C10 witness. -/
def c10row : LocalRow := updateRow 200 { wLogin with time_created := 77 } wRow

theorem find?_congr_pred {l : List α} {p q : α → Bool} (h : ∀ a, p a = q a) :
    l.find? p = l.find? q := by
  have : p = q := funext h
  rw [this]

theorem find?_filter_eq (l : List α) (p q : α → Bool) :
    (l.filter q).find? p = l.find? (fun a => q a && p a) := by
  induction l with
  | nil => rfl
  | cons a t ih =>
    by_cases hq : q a = true
    · by_cases hp : p a = true
      · simp [List.filter_cons, hq, List.find?_cons, hp]
      · simp only [List.filter_cons, hq, if_true, List.find?_cons]
        simp only [Bool.not_eq_true] at hp
        simp [hp, hq, ih]
    · simp only [Bool.not_eq_true] at hq
      simp [List.filter_cons, hq, List.find?_cons, ih]

theorem find?_foldl_insM_found {t : List MirrorRow} {xs : List MirrorRow} {g : String}
    {m : MirrorRow} (h : t.find? (fun r => r.guid == g) = some m) :
    (xs.foldl insertOrIgnoreM t).find? (fun r => r.guid == g) = some m := by
  induction xs generalizing t with
  | nil => simpa using h
  | cons x xs ih =>
    simp only [List.foldl_cons]
    apply ih
    unfold insertOrIgnoreM
    by_cases hx : t.any (fun r => r.guid == x.guid) = true
    · simpa [hx] using h
    · simp [hx, List.find?_append, h]

theorem find?_foldl_insM_none {t : List MirrorRow} {xs : List MirrorRow} {g : String}
    (h : t.find? (fun r => r.guid == g) = none) :
    (xs.foldl insertOrIgnoreM t).find? (fun r => r.guid == g) =
      xs.find? (fun r => r.guid == g) := by
  induction xs generalizing t with
  | nil => simpa using h
  | cons x xs ih =>
    simp only [List.foldl_cons]
    by_cases hxg : (x.guid == g) = true
    · have hg : x.guid = g := by simpa using hxg
      have hany : t.any (fun r => r.guid == x.guid) = false := by
        rw [Bool.eq_false_iff]
        intro hcon
        rcases List.any_eq_true.mp hcon with ⟨r, hr, hrg⟩
        have : r.guid = x.guid := by simpa using hrg
        have hnone := List.find?_eq_none.mp h r hr
        exact hnone (by simp [this, hg])
      have hstep : insertOrIgnoreM t x = t ++ [x] := by
        unfold insertOrIgnoreM
        simp [hany]
      have hfound : (t ++ [x]).find? (fun r => r.guid == g) = some x := by
        rw [List.find?_append, h]
        simp [List.find?_cons, hxg]
      rw [hstep, find?_foldl_insM_found hfound,
        List.find?_cons_of_pos (p := fun r => r.guid == g) xs hxg]
    · have hrest : (insertOrIgnoreM t x).find? (fun r => r.guid == g) = none := by
        unfold insertOrIgnoreM
        by_cases hany : t.any (fun r => r.guid == x.guid) = true
        · simpa [hany] using h
        · simp [hany, List.find?_append, h, List.find?_cons, hxg]
      rw [ih hrest,
        List.find?_cons_of_neg (p := fun r => r.guid == g) xs (by simp [hxg])]

theorem foldl_append_eq_map {α β : Type} {body : List β → α → List β} {g : α → β}
    (hb : ∀ acc a, body acc a = acc ++ [g a]) :
    ∀ (l : List α) (acc : List β), l.foldl body acc = acc ++ l.map g := by
  intro l
  induction l with
  | nil => intro acc; simp
  | cons a t ih =>
    intro acc
    rw [List.foldl_cons, hb, ih, List.map_cons, List.append_assoc]
    rfl

/-- C1: reconcile plans exactly one action per slot, determined by the
presence pattern of the slot: a tombstone plans a delete of the guid
whatever else is present; with mirror and local a three-way merge; with
mirror only a mirror update; with local only a two-way merge against the
local record; with neither a two-way merge against the content dupe when
find_dupe returns one, else a mirror insert with is_override false. -/
theorem c1_reconcile_classifies (st : DbState) (records : List SyncLoginData)
    (server_now : Int) :
    reconcile st records server_now = records.map (claimSlotAction st server_now) := by
  unfold reconcile
  rw [foldl_append_eq_map (g := claimSlotAction st server_now), List.nil_append]
  intro acc r
  obtain ⟨g, loc, mir, inb, t⟩ := r
  cases inb with
  | none => rfl
  | some up =>
    cases mir <;> cases loc
    · show (match find_dupe st up with
        | some dupe => acc ++ [PlanStep.planTwoWayMerge dupe up t]
        | none => acc ++ [PlanStep.planMirrorInsert up t false]) = _
      cases hd : find_dupe st up <;> simp [hd, claimSlotAction]
    · rfl
    · rfl
    · rfl

theorem clone_last_sync (st : DbState) (g : String) :
    (clone_mirror_to_overlay st g).1.last_sync = st.last_sync := by
  unfold clone_mirror_to_overlay
  cases h : st.loginsM.find? (fun r => r.guid == g)
  · rfl
  · dsimp only
    split <;> rfl

theorem ensure_last_sync (st : DbState) (g : String) :
    (ensure_local_overlay_exists st g).1.last_sync = st.last_sync := by
  unfold ensure_local_overlay_exists
  split
  · rfl
  · dsimp only
    split <;> simp [clone_last_sync]

/-- C5 amended: no CRUD operation changes the stored last_sync value,
and reset sets it to 0. (The original monotonicity claim fails: the
public set_last_sync, and sync_finished, store their argument
unconditionally — see the counterexample.) -/
theorem c5_last_sync_frame (st : DbState) :
    (∀ now fresh l, ((add now fresh st l).1).last_sync = st.last_sync) ∧
    (∀ now l, ((update now st l).1).last_sync = st.last_sync) ∧
    (∀ now id, ((touch now st id).1).last_sync = st.last_sync) ∧
    (∀ now id, ((delete now st id).1).last_sync = st.last_sync) ∧
    (∀ now, (wipe now st).last_sync = st.last_sync) ∧
    (reset st).last_sync = some 0 := by
  refine ⟨?_, ?_, ?_, ?_, ?_, rfl⟩
  · intro now fresh l
    unfold add
    split
    · rfl
    · dsimp only
      split <;> split <;> rfl
  · intro now l
    unfold update
    split
    · rfl
    · dsimp only
      split
      · exact ensure_last_sync st l.id
      · exact ensure_last_sync st l.id
  · intro now id
    unfold touch
    dsimp only
    split
    · exact ensure_last_sync st id
    · exact ensure_last_sync st id
  · intro now id
    rfl
  · intro now
    rfl

/-- C5 counterexample: set_last_sync is a public operation and is not
reset, yet it makes get_last_sync return 3 after it previously returned
5; the claimed monotonicity fails on the code. -/
theorem c5_counterexample :
    get_last_sync (set_last_sync emptyDb 5) = some 5 ∧
    get_last_sync (set_last_sync (set_last_sync emptyDb 5) 3) = some 3 ∧
    (3 : Int) < 5 := by
  exact ⟨rfl, rfl, by norm_num⟩

/-- C3: evaluation of add-then-update on a fresh store under the spec's
numeric SyncStatus values. Both operations succeed, no mirror row is
created, but the overlay row's sync_status ends as Changed, not New:
max(sync_status, Changed) maps New = 0 to Changed = 1, contradicting the
comment in the update SQL of db.rs (leave New records as they are) and
the claim. -/
theorem c3_update_after_add_eval :
    (add 100 "f" emptyDb wLogin).2.isOk = true ∧
    (update 200 c3st1 wLogin).2.isOk = true ∧
    c3st2.loginsM = [] ∧
    c3st2.loginsL.map (fun r => r.sync_status) = [statusChanged] ∧
    statusChanged ≠ statusNew := by
  decide

/-- C9: touch on an id present in neither table fails with NoSuchRecord
before any row is written: the overlay-existence probe finds nothing,
the mirror clone changes zero rows, and the state is returned
unchanged. -/
theorem c9_touch_unknown (st : DbState) (id : String) (now : Int)
    (hL : ∀ r ∈ st.loginsL, r.guid ≠ id)
    (hM : ∀ r ∈ st.loginsM, r.guid ≠ id) :
    touch now st id = (st, Except.error (ErrorKind.NoSuchRecord id)) := by
  have hany : (st.loginsL.any (fun r => r.guid == id)) = false := by
    rw [Bool.eq_false_iff]
    intro h
    rcases List.any_eq_true.mp h with ⟨r, hr, he⟩
    exact hL r hr (by simpa using he)
  have hfind : st.loginsM.find? (fun r => r.guid == id) = none :=
    List.find?_eq_none.mpr (fun r hr => by simpa using hM r hr)
  have hclone : clone_mirror_to_overlay st id = (st, 0) := by
    unfold clone_mirror_to_overlay
    rw [hfind]
  have hens : ensure_local_overlay_exists st id =
      (st, Except.error (ErrorKind.NoSuchRecord id)) := by
    unfold ensure_local_overlay_exists
    rw [hany]
    simp [hclone]
  unfold touch
  rw [hens]

/-- Witness for C9 at a concrete input: touching an id absent from the
empty store returns NoSuchRecord and the unchanged store. -/
theorem c9_witness : touch 5 emptyDb wid = (emptyDb, Except.error (ErrorKind.NoSuchRecord wid)) :=
  c9_touch_unknown emptyDb wid 5 (by intro r hr; cases hr) (by intro r hr; cases hr)

theorem find?_map_guard {f : LocalRow → LocalRow} (hf : ∀ r, (f r).guid = r.guid)
    (l : List LocalRow) (g : String) :
    (l.map (fun r => if r.guid == g then f r else r)).find? (fun r => r.guid == g) =
      (l.find? (fun r => r.guid == g)).map f := by
  induction l with
  | nil => rfl
  | cons a t ih =>
    by_cases h : (a.guid == g) = true
    · have hfa : ((f a).guid == g) = true := by
        rw [hf a]; exact h
      simp only [List.map_cons, if_pos h]
      rw [List.find?_cons_of_pos (p := fun (r : LocalRow) => r.guid == g) _ hfa,
        List.find?_cons_of_pos (p := fun (r : LocalRow) => r.guid == g) t h]
      rfl
    · simp only [List.map_cons, if_neg h]
      rw [List.find?_cons_of_neg (p := fun (r : LocalRow) => r.guid == g) _ h,
        List.find?_cons_of_neg (p := fun (r : LocalRow) => r.guid == g) t h]
      exact ih

/-- C10: a successful update never writes the guid or timeCreated
columns: whatever values the caller supplies, the overlay row for the
login id keeps the guid and time_created it had before the call (both
columns are absent from the SET list of the UPDATE). -/
theorem c10_update_preserves_time_created (now : Int) (st : DbState) (l : Login)
    (r0 : LocalRow)
    (h : st.loginsL.find? (fun r => r.guid == l.id) = some r0) :
    ∀ r', ((update now st l).1).loginsL.find? (fun r => r.guid == l.id) = some r' →
      r'.guid = r0.guid ∧ r'.time_created = r0.time_created := by
  intro r' h'
  have hany : (st.loginsL.any (fun r => r.guid == l.id)) = true := by
    have hm := List.mem_of_find?_eq_some h
    have hp := List.find?_some h
    exact List.any_eq_true.mpr ⟨r0, hm, hp⟩
  have hens : ensure_local_overlay_exists st l.id = (st, Except.ok ()) := by
    unfold ensure_local_overlay_exists
    rw [hany]
    rfl
  unfold update at h'
  by_cases hv : (!l.check_valid) = true
  · rw [if_pos hv] at h'
    rw [h] at h'
    cases h'
    exact ⟨rfl, rfl⟩
  · rw [if_neg hv] at h'
    simp only [hens] at h'
    have hmm : (mark_mirror_overridden st l.id).loginsL = st.loginsL := rfl
    rw [find?_map_guard (f := updateRow now l) (fun r => rfl) _ l.id] at h'
    rw [hmm, h] at h'
    cases h'
    exact ⟨rfl, rfl⟩

/-- Witness for C10 at a concrete input: updating with a login that
carries a different time_created leaves the stored guid and
time_created of the row c10row as they were in wRow. -/
theorem c10_witness :
    c10row.guid = wRow.guid ∧ c10row.time_created = wRow.time_created :=
  c10_update_preserves_time_created 200 wSt { wLogin with time_created := 77 } wRow
    (by decide) c10row (by decide)

/-- C6 counterexample: with the guid present only as a mirror row, add
succeeds instead of failing with DuplicateGuid — the INSERT OR IGNORE
only conflicts against loginsL, so a mirror-only guid is not detected. -/
theorem c6_counterexample :
    (c6st.loginsM.any (fun r => r.guid == wLogin.id)) = true ∧
    c6st.loginsL = [] ∧
    (add 3 "f" c6st wLogin).2.isOk = true := by
  decide

/-- C6 amended: for a valid login with a non-empty id, add fails with
DuplicateGuid exactly when an overlay (loginsL) row with that guid
exists — a mirror-only guid does not trigger the error — and in the
duplicate case nothing is inserted: the state is unchanged. -/
theorem c6_add_duplicate_iff (now : Int) (fresh : String) (st : DbState) (l : Login)
    (hv : l.check_valid = true) (hid : l.id ≠ "") :
    ((add now fresh st l).2 = Except.error (ErrorKind.DuplicateGuid l.id) ↔
      st.loginsL.any (fun r => r.guid == l.id) = true) ∧
    (st.loginsL.any (fun r => r.guid == l.id) = true → (add now fresh st l).1 = st) := by
  have hnv : (!l.check_valid) = false := by rw [hv]; rfl
  have hids : (l.id == "") = false := by
    rw [Bool.eq_false_iff]
    intro hc
    exact hid (by simpa using hc)
  unfold add
  rw [hnv]
  simp only [Bool.false_eq_true, if_false, hids]
  by_cases hd : st.loginsL.any (fun r => r.guid == l.id) = true
  · rw [if_pos hd]
    exact ⟨by simp [hd], fun _ => rfl⟩
  · rw [if_neg hd]
    constructor
    · constructor
      · intro hc
        cases hc
      · intro hc
        exact absurd hc hd
    · intro hc
      exact absurd hc hd

/-- Witness for C6 at a concrete input: adding wLogin again over its own
overlay row yields the DuplicateGuid error. -/
theorem c6_witness :
    (add 2 "f" c6wst wLogin).2 = Except.error (ErrorKind.DuplicateGuid wLogin.id) ∧
    (add 2 "f" c6wst wLogin).1 = c6wst := by
  have h := c6_add_duplicate_iff 2 "f" c6wst wLogin (by decide) (by decide)
  exact ⟨h.1.mpr (by decide), h.2 (by decide)⟩

/-- C7 counterexample: two inputs where find_dupe returns a record
although no overlay row satisfies the claim's criterion. First, the
query's formSubmitURL arm also accepts rows whose formSubmitURL is the
empty string. Second, when the incoming form_submit_url is present but
its host-port does not parse, the bound parameter is NULL and the
query's IS arm matches a row with no formSubmitURL, although the
incoming record does have a form_submit_url. -/
theorem c7_counterexample :
    ((find_dupe c7st c7login).isSome = true ∧
      (∀ r ∈ c7st.loginsL, claimIsDupe c7login r = false)) ∧
    ((find_dupe c7st2 c7login2).isSome = true ∧
      (∀ r ∈ c7st2.loginsL, claimIsDupe c7login2 r = false)) := by
  decide

/-- C7 amended: for every incoming record, find_dupe returns some
record exactly when an overlay row satisfies the amended criterion
(amendedIsDupe), and any returned record is Login::from_row of such an
overlay row — no mirror row is ever returned. -/
theorem c7_find_dupe_amended (st : DbState) (l : Login) :
    ((find_dupe st l).isSome = true ↔ ∃ r ∈ st.loginsL, amendedIsDupe l r = true) ∧
    (∀ res, find_dupe st l = some res →
      ∃ r ∈ st.loginsL, amendedIsDupe l r = true ∧ res = localToLogin r) := by
  have hpred : ∀ r, dupeRowMatches (l.form_submit_url.bind (fun s => url_host_port s)) l r
      = amendedIsDupe l r := by
    intro r
    cases hs : l.form_submit_url with
    | none =>
      unfold dupeRowMatches amendedIsDupe
      rw [hs]
      simp only [Option.none_bind]
    | some s =>
      unfold dupeRowMatches amendedIsDupe
      rw [hs]
      simp only [Option.some_bind]
  have hfd : find_dupe st l =
      (st.loginsL.find? (fun r => amendedIsDupe l r)).map localToLogin := by
    rw [show find_dupe st l =
        (st.loginsL.find? (fun r =>
          dupeRowMatches (l.form_submit_url.bind (fun s => url_host_port s)) l r)).map
          localToLogin from rfl,
      find?_congr_pred hpred]
  constructor
  · rw [hfd, Option.isSome_map']
    exact List.find?_isSome
  · intro res hres
    rw [hfd] at hres
    rcases Option.map_eq_some'.mp hres with ⟨r, hr, hloc⟩
    exact ⟨r, List.mem_of_find?_eq_some hr, List.find?_some hr, hloc.symm⟩

/-- Witness for C7 at a concrete input: applied to the counterexample
store, the amended theorem produces the matching overlay row behind the
record that find_dupe returns. -/
theorem c7_witness :
    ∃ r ∈ c7st.loginsL, amendedIsDupe c7login r = true ∧
      localToLogin c7row = localToLogin r :=
  (c7_find_dupe_amended c7st c7login).2 (localToLogin c7row) (by decide)

/-- Membership in a fold of guarded inserts of mapped elements: every
row either was already present or is the image of a folded element. -/
theorem mem_foldl_insL_map {t : List LocalRow} {xs : List MirrorRow}
    {f : MirrorRow → LocalRow} {r : LocalRow}
    (h : r ∈ xs.foldl (fun acc m => insertOrIgnoreL acc (f m)) t) :
    r ∈ t ∨ ∃ m ∈ xs, r = f m := by
  induction xs generalizing t with
  | nil => exact Or.inl (by simpa using h)
  | cons x xs ih =>
    simp only [List.foldl_cons] at h
    rcases ih h with h1 | h1
    · unfold insertOrIgnoreL at h1
      by_cases hx : t.any (fun y => y.guid == (f x).guid) = true
      · rw [if_pos hx] at h1
        exact Or.inl h1
      · rw [if_neg hx] at h1
        rcases List.mem_append.mp h1 with h2 | h2
        · exact Or.inl h2
        · exact Or.inr ⟨x, List.mem_cons_self x xs, List.mem_singleton.mp h2⟩
    · rcases h1 with ⟨m, hm, he⟩
      exact Or.inr ⟨m, List.mem_cons_of_mem _ hm, he⟩

/-- C4 amended: every tombstone overlay row that delete or wipe writes
has is_deleted = 1, empty hostname, username and password,
local_modified = now, and time_created preserved from the prior record;
its time_password_changed equals local_modified only for tombstones
copied from the mirror — a tombstone made by updating an existing
overlay row keeps that row's previous time_password_changed. For wipe
the rows it wrote are those not already present in the overlay before
the call. -/
theorem c4_tombstone_shape (st : DbState) (g : String) (now : Int) :
    (∀ r, ((delete now st g).1).loginsL.find? (fun x => x.guid == g) = some r →
      r.is_deleted = true ∧ r.hostname = "" ∧ r.username = "" ∧ r.password = "" ∧
      r.local_modified = some now ∧
      ((∃ r0 ∈ st.loginsL, r0.guid = g ∧ r.time_created = r0.time_created ∧
          r.time_password_changed = r0.time_password_changed) ∨
       (∃ m ∈ st.loginsM, m.guid = g ∧ r.time_created = m.time_created ∧
          r.time_password_changed = now))) ∧
    (∀ g2 r, (wipe now st).loginsL.find? (fun x => x.guid == g2) = some r →
      r ∉ st.loginsL →
      r.is_deleted = true ∧ r.hostname = "" ∧ r.username = "" ∧ r.password = "" ∧
      r.local_modified = some now ∧
      ((∃ r0 ∈ st.loginsL, r0.guid = g2 ∧ r.time_created = r0.time_created ∧
          r.time_password_changed = r0.time_password_changed) ∨
       (∃ m ∈ st.loginsM, m.guid = g2 ∧ r.time_created = m.time_created ∧
          r.time_password_changed = now))) := by
  constructor
  · intro r hr
    have hrg := List.find?_some hr
    have hrmem : r ∈ ((delete now st g).1).loginsL := List.mem_of_find?_eq_some hr
    revert hrmem
    show r ∈ (if _ then _ else _) → _
    split
    · intro hmem
      rcases List.mem_map.mp hmem with ⟨r1, hr1, he⟩
      by_cases h1 : (r1.guid == g) = true
      · rw [if_pos h1] at he
        subst he
        refine ⟨rfl, rfl, rfl, rfl, rfl, Or.inl ⟨r1, ?_, by simpa using h1, rfl, rfl⟩⟩
        exact (List.mem_filter.mp hr1).1
      · rw [if_neg h1] at he
        subst he
        exact absurd hrg h1
    · intro hmem
      rename_i hno
      revert hmem
      cases hm : st.loginsM.find? (fun x => x.guid == g) with
      | none =>
        intro hmem
        rcases List.mem_map.mp hmem with ⟨r1, hr1, he⟩
        by_cases h1 : (r1.guid == g) = true
        · exact absurd (List.any_eq_true.mpr ⟨_, hmem, hrg⟩) hno
        · rw [if_neg h1] at he
          subst he
          exact absurd hrg h1
      | some m =>
        intro hmem
        rcases List.mem_append.mp hmem with h2 | h2
        · rcases List.mem_map.mp h2 with ⟨r1, hr1, he⟩
          by_cases h1 : (r1.guid == g) = true
          · exact absurd (List.any_eq_true.mpr ⟨_, h2, hrg⟩) hno
          · rw [if_neg h1] at he
            subst he
            exact absurd hrg h1
        · have he := List.mem_singleton.mp h2
          subst he
          have hmg : m.guid = g := by simpa using List.find?_some hm
          exact ⟨rfl, rfl, rfl, rfl, rfl,
            Or.inr ⟨m, List.mem_of_find?_eq_some hm, hmg, rfl, rfl⟩⟩
  · intro g2 r hr hnot
    have hrg := List.find?_some hr
    have hrmem : r ∈ (wipe now st).loginsL := List.mem_of_find?_eq_some hr
    rcases mem_foldl_insL_map hrmem with h2 | h2
    · rcases List.mem_map.mp h2 with ⟨r1, hr1, he⟩
      by_cases h1 : (!r1.is_deleted) = true
      · rw [if_pos h1] at he
        subst he
        refine ⟨rfl, rfl, rfl, rfl, rfl, Or.inl ⟨r1, ?_, by simpa using hrg, rfl, rfl⟩⟩
        exact (List.mem_filter.mp hr1).1
      · rw [if_neg h1] at he
        subst he
        exact absurd ((List.mem_filter.mp hr1).1) hnot
    · rcases h2 with ⟨m, hm, he⟩
      subst he
      have hmg : m.guid = g2 := by simpa using hrg
      exact ⟨rfl, rfl, rfl, rfl, rfl, Or.inr ⟨m, hm, hmg, rfl, rfl⟩⟩

/-- C4 counterexample: the tombstone row left by delete has
time_password_changed = 100 but local_modified = 300 — the tombstoning
UPDATE does not touch timePasswordChanged, so it does not equal
local_modified as the claim requires. -/
theorem c4_counterexample :
    c4st4.loginsL.map (fun r =>
        (r.is_deleted, r.time_password_changed, r.local_modified)) =
      [(true, (100 : Int), some (300 : Int))] ∧
    (100 : Int) ≠ 300 := by
  decide

/-- Witness for C4 at a concrete input: the mirror-copied tombstone of
the delete on c6st satisfies the amended shape. -/
theorem c4_witness :
    c4wrow.is_deleted = true ∧ c4wrow.hostname = "" ∧ c4wrow.username = "" ∧
    c4wrow.password = "" ∧ c4wrow.local_modified = some 300 ∧
    ((∃ r0 ∈ c6st.loginsL, r0.guid = wLogin.id ∧
        c4wrow.time_created = r0.time_created ∧
        c4wrow.time_password_changed = r0.time_password_changed) ∨
     (∃ m ∈ c6st.loginsM, m.guid = wLogin.id ∧
        c4wrow.time_created = m.time_created ∧
        c4wrow.time_password_changed = 300)) :=
  (c4_tombstone_shape c6st wLogin.id 300).1 c4wrow (by decide)

/-- A filter by a conjunction is a sublist of the filter by one
conjunct. -/
theorem filter_and_sublist {α : Type} (p q : α → Bool) (l : List α) :
    (l.filter (fun a => p a && q a)).Sublist (l.filter q) := by
  induction l with
  | nil => simp
  | cons a t ih =>
    simp only [List.filter_cons]
    by_cases hq : q a = true
    · rw [if_pos hq]
      by_cases hp : (p a && q a) = true
      · rw [if_pos hp]
        exact List.Sublist.cons₂ a ih
      · rw [if_neg hp]
        exact List.Sublist.cons a ih
    · rw [if_neg hq, if_neg (by simp [hq])]
      exact ih

/-- Under a nodup key column, filtering by one key value keeps at most
one row. -/
theorem length_filter_key_le_one {α : Type} (key : α → String) {l : List α}
    (h : (l.map key).Nodup) (g : String) :
    (l.filter (fun a => key a == g)).length ≤ 1 := by
  induction l with
  | nil => simp
  | cons a t ih =>
    rw [List.map_cons, List.nodup_cons] at h
    by_cases hk : (key a == g) = true
    · rw [List.filter_cons, if_pos hk]
      have hnil : t.filter (fun a => key a == g) = [] := by
        rw [List.filter_eq_nil_iff]
        intro b hb hbg
        have hbg2 : key b = g := by simpa using hbg
        have hag : key a = g := by simpa using hk
        exact h.1 (by
          rw [hag, ← hbg2]
          exact List.mem_map.mpr ⟨b, hb, rfl⟩)
      rw [hnil]
      simp
    · rw [List.filter_cons, if_neg hk]
      exact ih h.2

/-- Pushing a filter by record id through the overlay half of get_all:
it is the map of the row-level filter. -/
theorem filter_get_all_local (l : List LocalRow) (g : String) :
    ((l.filter (fun r => !r.is_deleted)).map localToLogin).filter (fun x => x.id == g) =
      (l.filter (fun r => !r.is_deleted && r.guid == g)).map localToLogin := by
  induction l with
  | nil => rfl
  | cons a t ih =>
    by_cases h1 : (!a.is_deleted) = true <;> by_cases h2 : (a.guid == g) = true <;>
      simp [List.filter_cons, h1, h2, ih, localToLogin]

/-- Pushing a filter by record id through the mirror half of get_all. -/
theorem filter_get_all_mirror (l : List MirrorRow) (g : String) :
    ((l.filter (fun r => !r.is_overridden)).map mirrorToLogin).filter (fun x => x.id == g) =
      (l.filter (fun r => !r.is_overridden && r.guid == g)).map mirrorToLogin := by
  induction l with
  | nil => rfl
  | cons a t ih =>
    by_cases h1 : (!a.is_overridden) = true <;> by_cases h2 : (a.guid == g) = true <;>
      simp [List.filter_cons, h1, h2, ih, mirrorToLogin]

/-- On a list of at most one element the hostname-minimum pick is just
the head. -/
theorem pickMin_short (cs : List Login) (h : cs.length ≤ 1) :
    pickMinByHostname cs = cs.head? := by
  cases cs with
  | nil => rfl
  | cons a t =>
    cases t with
    | nil => rfl
    | cons b t2 => exact absurd h (by simp)

/-- C8 amended: in every state satisfying the per-guid table discipline
of section 3 (guids are primary keys and a visible overlay row shadows
its mirror row), get_all returns no two records with the same guid and
get_by_id is the head of the id filter of get_all. Without that
discipline both parts fail on a reachable state — see the
counterexample. -/
theorem c8_get_all_get_by_id (st : DbState) (h : goodState st) :
    ((get_all st).map (fun l => l.id)).Nodup ∧
    ∀ g, get_by_id st g = ((get_all st).filter (fun l => l.id == g)).head? := by
  obtain ⟨hL, hM, hshadow⟩ := h
  constructor
  · show ((((st.loginsL.filter (fun r => !r.is_deleted)).map localToLogin) ++
      ((st.loginsM.filter (fun r => !r.is_overridden)).map mirrorToLogin)).map
        (fun l => l.id)).Nodup
    rw [List.map_append, List.map_map, List.map_map, List.nodup_append]
    refine ⟨?_, ?_, ?_⟩
    · exact List.Nodup.sublist
        (List.Sublist.map _ (List.filter_sublist st.loginsL)) hL
    · exact List.Nodup.sublist
        (List.Sublist.map _ (List.filter_sublist st.loginsM)) hM
    · intro x hx hx2
      rcases List.mem_map.mp hx with ⟨r, hr, he⟩
      rcases List.mem_map.mp hx2 with ⟨m, hm, he2⟩
      rcases List.mem_filter.mp hr with ⟨hrmem, hrdel⟩
      rcases List.mem_filter.mp hm with ⟨hmmem, hmov⟩
      have hdel : r.is_deleted = false := by simpa using hrdel
      have heg : r.guid = x := he
      have heg2 : m.guid = x := he2
      have hov := hshadow r hrmem hdel m hmmem (by rw [heg2, heg])
      rw [hov] at hmov
      simp at hmov
  · intro g
    show pickMinByHostname _ = _
    rw [show get_all st =
        ((st.loginsL.filter (fun r => !r.is_deleted)).map localToLogin) ++
        ((st.loginsM.filter (fun r => !r.is_overridden)).map mirrorToLogin) from rfl,
      List.filter_append, filter_get_all_local, filter_get_all_mirror]
    apply pickMin_short
    have lenA := Nat.le_trans
      (List.Sublist.length_le (filter_and_sublist (fun (r : LocalRow) => !r.is_deleted)
        (fun r => r.guid == g) st.loginsL))
      (length_filter_key_le_one (fun (r : LocalRow) => r.guid) hL g)
    have lenB := Nat.le_trans
      (List.Sublist.length_le (filter_and_sublist (fun (r : MirrorRow) => !r.is_overridden)
        (fun r => r.guid == g) st.loginsM))
      (length_filter_key_le_one (fun (r : MirrorRow) => r.guid) hM g)
    cases hA : st.loginsL.filter (fun r => !r.is_deleted && r.guid == g) with
    | nil =>
      simpa using lenB
    | cons r rl =>
      have hrmem := List.mem_filter.mp (hA ▸ List.mem_cons_self r rl)
      rcases hrmem with ⟨hrmem, hrpred⟩
      rw [Bool.and_eq_true] at hrpred
      have hdel : r.is_deleted = false := by simpa using hrpred.1
      have hrg : r.guid = g := by simpa using hrpred.2
      have hBnil : st.loginsM.filter (fun m => !m.is_overridden && m.guid == g) = [] := by
        rw [List.filter_eq_nil_iff]
        intro m hm hpred
        rw [Bool.and_eq_true] at hpred
        have hmg : m.guid = g := by simpa using hpred.2
        have hov := hshadow r hrmem hdel m hm (by rw [hmg, hrg])
        rw [hov] at hpred
        simpa using hpred.1
      rw [hBnil]
      rw [← hA]
      simpa using lenA

/-- C8 counterexample: on the reachable state c8st, get_all returns the
same guid twice, so its result is not duplicate-free (and the id filter
of get_all has two elements while get_by_id returns one record). -/
theorem c8_counterexample :
    ¬ ((get_all c8st).map (fun l => l.id)).Nodup := by
  decide

/-- Witness for C8 at a concrete input: the one-row store wSt satisfies
the table discipline, so get_all is duplicate-free and get_by_id is the
head of the filter. -/
theorem c8_witness :
    ((get_all wSt).map (fun l => l.id)).Nodup ∧
    get_by_id wSt wLogin.id =
      ((get_all wSt).filter (fun l => l.id == wLogin.id)).head? := by
  have h := c8_get_all_get_by_id wSt (by decide)
  exact ⟨h.1, h.2 wLogin.id⟩

theorem contains_true_iff {l : List String} {g : String} :
    l.contains g = true ↔ g ∈ l := by
  rw [List.contains_eq_any_beq, List.any_eq_true]
  constructor
  · rintro ⟨x, hx, he⟩
    have : g = x := by simpa using he
    exact this ▸ hx
  · intro hg
    exact ⟨g, hg, by simp⟩

/-- A chunk of mark_as_synchronized removes every overlay row whose guid
is in the chunk. -/
theorem step_L_mem {ts : Int} {st : DbState} {chunk : List String} {g : String}
    (hg : g ∈ chunk) :
    (syncChunkStep ts st chunk).loginsL.find? (fun r => r.guid == g) = none := by
  apply List.find?_eq_none.mpr
  intro r hr hpr
  have he : r.guid = g := by simpa using hpr
  have hfc := (List.mem_filter.mp hr).2
  rw [he, contains_true_iff.mpr hg] at hfc
  simp at hfc

/-- A chunk of mark_as_synchronized does not change the overlay entry of
a guid outside the chunk. -/
theorem step_L_not_mem {ts : Int} {st : DbState} {chunk : List String} {g : String}
    (hg : g ∉ chunk) :
    (syncChunkStep ts st chunk).loginsL.find? (fun r => r.guid == g) =
      st.loginsL.find? (fun r => r.guid == g) := by
  show (st.loginsL.filter (fun r => !(chunk.contains r.guid))).find?
      (fun r => r.guid == g) = _
  rw [find?_filter_eq]
  apply find?_congr_pred
  intro r
  by_cases h : (r.guid == g) = true
  · have he : r.guid = g := by simpa using h
    have hc : chunk.contains r.guid = false := by
      rw [he, Bool.eq_false_iff]
      intro hcon
      exact hg (contains_true_iff.mp hcon)
    rw [h, hc]; rfl
  · simp [h]

/-- A chunk of mark_as_synchronized does not change the mirror entry of
a guid outside the chunk. -/
theorem step_M_not_mem {ts : Int} {st : DbState} {chunk : List String} {g : String}
    (hg : g ∉ chunk) :
    (syncChunkStep ts st chunk).loginsM.find? (fun r => r.guid == g) =
      st.loginsM.find? (fun r => r.guid == g) := by
  show (((st.loginsL.filter (fun l => !l.is_deleted && chunk.contains l.guid)).map
      (mirrorFromLocal ts)).foldl insertOrIgnoreM
      (st.loginsM.filter (fun r => !(chunk.contains r.guid)))).find?
      (fun r => r.guid == g) = _
  have hm1 : (st.loginsM.filter (fun r => !(chunk.contains r.guid))).find?
      (fun r => r.guid == g) = st.loginsM.find? (fun r => r.guid == g) := by
    rw [find?_filter_eq]
    apply find?_congr_pred
    intro r
    by_cases h : (r.guid == g) = true
    · have he : r.guid = g := by simpa using h
      have hc : chunk.contains r.guid = false := by
        rw [he, Bool.eq_false_iff]
        intro hcon
        exact hg (contains_true_iff.mp hcon)
      rw [h, hc]; rfl
    · simp [h]
  cases hcase : st.loginsM.find? (fun r => r.guid == g) with
  | some m => exact find?_foldl_insM_found (hm1.trans hcase)
  | none =>
    rw [find?_foldl_insM_none (hm1.trans hcase)]
    apply List.find?_eq_none.mpr
    intro x hx hpx
    rcases List.mem_map.mp hx with ⟨a, ha, hax⟩
    rcases List.mem_filter.mp ha with ⟨_, hpa⟩
    rw [Bool.and_eq_true] at hpa
    have hgx : x.guid = g := by simpa using hpx
    have hmem : a.guid ∈ chunk := contains_true_iff.mp hpa.2
    have hga : a.guid = g := by
      rw [← hax] at hgx
      exact hgx
    exact hg (hga ▸ hmem)

/-- After a chunk of mark_as_synchronized, a mirror entry for a chunk
guid is the promotion copy of a non-deleted overlay row with that
guid. -/
theorem step_M_mem {ts : Int} {st : DbState} {chunk : List String} {g : String}
    (hg : g ∈ chunk) :
    ∀ m, (syncChunkStep ts st chunk).loginsM.find? (fun r => r.guid == g) = some m →
      ∃ l ∈ st.loginsL, l.guid = g ∧ l.is_deleted = false ∧ m = mirrorFromLocal ts l := by
  intro m hm
  have hm1 : (st.loginsM.filter (fun r => !(chunk.contains r.guid))).find?
      (fun r => r.guid == g) = none := by
    apply List.find?_eq_none.mpr
    intro r hr hpr
    have he : r.guid = g := by simpa using hpr
    have hfc := (List.mem_filter.mp hr).2
    rw [he, contains_true_iff.mpr hg] at hfc
    simp at hfc
  have hm2 : (((st.loginsL.filter (fun l => !l.is_deleted && chunk.contains l.guid)).map
      (mirrorFromLocal ts)).foldl insertOrIgnoreM
      (st.loginsM.filter (fun r => !(chunk.contains r.guid)))).find?
      (fun r => r.guid == g) = some m := hm
  rw [find?_foldl_insM_none hm1] at hm2
  have hpm := List.find?_some hm2
  have hmm := List.mem_of_find?_eq_some hm2
  rcases List.mem_map.mp hmm with ⟨a, ha, hax⟩
  rcases List.mem_filter.mp ha with ⟨hamem, hpa⟩
  rw [Bool.and_eq_true] at hpa
  have hga : a.guid = g := by
    have hmg : m.guid = g := by simpa using hpm
    rw [← hax] at hmg
    exact hmg
  exact ⟨a, hamem, hga, by simpa using hpa.1, hax.symm⟩

/-- The invariant of the chunk fold of mark_as_synchronized: guids in
some processed chunk lose their overlay row and keep a mirror row only
as a promotion copy of an original non-deleted overlay row; guids in no
chunk are untouched; and the overlay only loses rows. -/
theorem sync_fold_spec (ts : Int) :
    ∀ (cs : List (List String)) (st : DbState),
      (∀ g ∈ cs.flatten,
        ((cs.foldl (syncChunkStep ts) st).loginsL.find? (fun r => r.guid == g) = none) ∧
        (∀ m, (cs.foldl (syncChunkStep ts) st).loginsM.find?
            (fun r => r.guid == g) = some m →
          ∃ l ∈ st.loginsL, l.guid = g ∧ l.is_deleted = false ∧
            m = mirrorFromLocal ts l)) ∧
      (∀ g, g ∉ cs.flatten →
        ((cs.foldl (syncChunkStep ts) st).loginsL.find? (fun r => r.guid == g) =
          st.loginsL.find? (fun r => r.guid == g)) ∧
        ((cs.foldl (syncChunkStep ts) st).loginsM.find? (fun r => r.guid == g) =
          st.loginsM.find? (fun r => r.guid == g))) ∧
      (∀ r ∈ (cs.foldl (syncChunkStep ts) st).loginsL, r ∈ st.loginsL) := by
  intro cs
  induction cs with
  | nil =>
    intro st
    refine ⟨?_, ?_, fun r hr => hr⟩
    · intro g hg
      simp at hg
    · intro g _
      exact ⟨rfl, rfl⟩
  | cons c cs ih =>
    intro st
    obtain ⟨ih1, ih2, ih3⟩ := ih (syncChunkStep ts st c)
    have hsub : ∀ r ∈ (syncChunkStep ts st c).loginsL, r ∈ st.loginsL := by
      intro r hr
      exact (List.mem_filter.mp hr).1
    simp only [List.foldl_cons, List.flatten_cons]
    refine ⟨?_, ?_, ?_⟩
    · intro g hg
      by_cases hgc : g ∈ cs.flatten
      · obtain ⟨ha, hb⟩ := ih1 g hgc
        refine ⟨ha, ?_⟩
        intro m hm
        obtain ⟨l, hl, hgl, hdl, hml⟩ := hb m hm
        exact ⟨l, hsub l hl, hgl, hdl, hml⟩
      · have hgc2 : g ∈ c := by
          rcases List.mem_append.mp hg with h2 | h2
          · exact h2
          · exact absurd h2 hgc
        obtain ⟨ha2, hb2⟩ := ih2 g hgc
        constructor
        · rw [ha2]
          exact step_L_mem hgc2
        · intro m hm
          rw [hb2] at hm
          exact step_M_mem hgc2 m hm
    · intro g hg
      have hgc : g ∉ c := fun h2 => hg (List.mem_append.mpr (Or.inl h2))
      have hgcs : g ∉ cs.flatten := fun h2 => hg (List.mem_append.mpr (Or.inr h2))
      obtain ⟨ha, hb⟩ := ih2 g hgcs
      rw [ha, hb]
      exact ⟨step_L_not_mem hgc, step_M_not_mem hgc⟩
    · intro r hr
      exact hsub r (ih3 r hr)

/-- The chunks of a guid list flatten back to the list. -/
theorem chunksOfAux_flatten :
    ∀ (fuel n : Nat) (l : List String), (chunksOfAux fuel n l).flatten = l := by
  intro fuel
  induction fuel with
  | zero =>
    intro n l
    cases l with
    | nil => rfl
    | cons a t => simp [chunksOfAux]
  | succ fuel ih =>
    intro n l
    cases l with
    | nil => rfl
    | cons x xs =>
      show ((x :: xs.take (n - 1)) :: chunksOfAux fuel n (xs.drop (n - 1))).flatten = x :: xs
      rw [List.flatten_cons, ih n _, List.cons_append, List.take_append_drop]

/-- C2: for every guid list, timestamp and variable-count ceiling,
sync_finished (mark_as_synchronized) ends with no overlay row for any
synced guid; any mirror row for a synced guid is a fresh promotion copy
of a non-deleted overlay row of the pre-call state, with
is_overridden = 0 and server_modified = ts (so a guid whose overlay was
a tombstone ends with no row in either table); and the stored last_sync
equals ts. -/
theorem c2_mark_as_synchronized (max_var_count : Nat) (ts : Int) (st : DbState)
    (guids : List String) :
    (∀ g ∈ guids,
      (mark_as_synchronized max_var_count ts st guids).loginsL.find?
        (fun r => r.guid == g) = none) ∧
    (∀ g ∈ guids, ∀ m,
      (mark_as_synchronized max_var_count ts st guids).loginsM.find?
        (fun r => r.guid == g) = some m →
      m.is_overridden = false ∧ m.server_modified = ts ∧
      ∃ l ∈ st.loginsL, l.guid = g ∧ l.is_deleted = false ∧
        m = mirrorFromLocal ts l) ∧
    (mark_as_synchronized max_var_count ts st guids).last_sync = some ts := by
  have hflat : (chunksOf max_var_count guids).flatten = guids :=
    chunksOfAux_flatten guids.length max_var_count guids
  have h := sync_fold_spec ts (chunksOf max_var_count guids) st
  refine ⟨?_, ?_, rfl⟩
  · intro g hg
    exact (h.1 g (by rw [hflat]; exact hg)).1
  · intro g hg m hm
    obtain ⟨l, hl, hgl, hdl, hml⟩ := (h.1 g (by rw [hflat]; exact hg)).2 m hm
    exact ⟨by rw [hml]; rfl, by rw [hml]; rfl, l, hl, hgl, hdl, hml⟩

/-- Witness for C2 at a concrete input: syncing the one-row store wSt
removes the overlay row, leaves the promotion copy c2m in the mirror,
and stores last_sync = 500. -/
theorem c2_witness :
    (mark_as_synchronized 5 500 wSt [wLogin.id]).loginsL.find?
      (fun r => r.guid == wLogin.id) = none ∧
    c2m.is_overridden = false ∧ c2m.server_modified = 500 ∧
    (∃ l ∈ wSt.loginsL, l.guid = wLogin.id ∧ l.is_deleted = false ∧
      c2m = mirrorFromLocal 500 l) ∧
    (mark_as_synchronized 5 500 wSt [wLogin.id]).last_sync = some 500 := by
  have h := c2_mark_as_synchronized 5 500 wSt [wLogin.id]
  have hmem : wLogin.id ∈ [wLogin.id] := List.mem_singleton.mpr rfl
  have hsome : (mark_as_synchronized 5 500 wSt [wLogin.id]).loginsM.find?
      (fun r => r.guid == wLogin.id) = some c2m := by decide
  obtain ⟨h1, h2, h3⟩ := h
  obtain ⟨ho, hsm, hex⟩ := h2 wLogin.id hmem c2m hsome
  exact ⟨h1 wLogin.id hmem, ho, hsm, hex, h3⟩
